import Mathlib

/-!
Shallow embedding of the Bond Yard Inventory client (src/server.js) and
proofs of the testable properties of its specification.

Strings are modelled as lists of characters. JavaScript's `Number(...)`
coercion is modelled as an `Option ℚ` valued parser: `none` stands for
`NaN`, which is absorbing for the arithmetic used in the aggregation code.
The model covers the decimal grammar `sign? (digits ('.' digits?)? | '.'
digits)` after trimming ASCII whitespace; the empty (or all-whitespace)
string coerces to `0`, exactly as in JavaScript.
-/

abbrev Str := List Char

/-- Character classes used by the model: ASCII digits. -/
def isDigitC (c : Char) : Bool := decide (48 ≤ c.toNat) && decide (c.toNat ≤ 57)

/-- ASCII whitespace as removed by `String.prototype.trim`. -/
def isWsC (c : Char) : Bool :=
  decide (c.toNat = 32) || decide (c.toNat = 9) || decide (c.toNat = 10) ||
  decide (c.toNat = 13) || decide (c.toNat = 11) || decide (c.toNat = 12)

/-- `query.trim()` — drop whitespace from both ends. -/
def jsTrim (s : Str) : Str :=
  ((s.dropWhile isWsC).reverse.dropWhile isWsC).reverse

/-- Accumulator-style digit-string value, as a left fold (the shape a
scanner produces). -/
def natOfDigits (ds : List Char) : Nat :=
  ds.foldl (fun a c => 10 * a + (c.toNat - 48)) 0

/-- Unsigned part of the `Number(...)` grammar: digits with an optional
fractional part, or a bare fractional part. -/
def parseUnsigned (cs : List Char) : Option ℚ :=
  match cs.dropWhile isDigitC with
  | [] =>
    if (cs.takeWhile isDigitC).isEmpty then none
    else some ((natOfDigits (cs.takeWhile isDigitC) : ℚ))
  | c :: frac =>
    if c = '.' && frac.all isDigitC && !((cs.takeWhile isDigitC).isEmpty && frac.isEmpty) then
      some ((natOfDigits (cs.takeWhile isDigitC) : ℚ) +
            (natOfDigits frac : ℚ) / 10 ^ frac.length)
    else none

/-- Model of JavaScript `Number(s)` on a string: `none` is `NaN`. -/
def jsNumber (s : Str) : Option ℚ :=
  match jsTrim s with
  | [] => some 0
  | c :: r =>
    if c = '+' then parseUnsigned r
    else if c = '-' then (parseUnsigned r).map (fun q => -q)
    else parseUnsigned (c :: r)

/-- `Number(b.qty || 0)`: a missing (`null`/`undefined`) or empty quantity
string is falsy and coerces to `0`. -/
def parseQty (q : Option Str) : Option ℚ :=
  match q with
  | none => some 0
  | some [] => some 0
  | some s => jsNumber s

/-- NaN-propagating addition on JavaScript numbers. -/
def numAdd (a b : Option ℚ) : Option ℚ :=
  match a, b with
  | some x, some y => some (x + y)
  | _, _ => none

/-- NaN-propagating subtraction on JavaScript numbers. -/
def numSub (a b : Option ℚ) : Option ℚ :=
  match a, b with
  | some x, some y => some (x - y)
  | _, _ => none

/-- A stock movement row (`{ id, type, date, qty, notes }`). The quantity
is stored as text; `none` models a `null`/`undefined` field. -/
structure Movement where
  id : Str
  type : Str
  date : Option Str
  qty : Option Str
  notes : Str
deriving DecidableEq

/-- An attachment row (`{ id, name, mime, size, url }`). -/
structure Attachment where
  id : Str
  name : Str
  mime : Str
  size : Nat
  url : Str
deriving DecidableEq

/-- A vehicle record as held in the client's `items` state. The
`movements` and `attachments` fields are optional because the code guards
them with `v.movements || []` and `v.attachments || []`. -/
structure Vehicle where
  id : Str
  vin : Str
  stockNo : Str
  make : Str
  model : Str
  year : Str
  color : Str
  location : Str
  status : Str
  supplier : Str
  buyer : Str
  inDate : Option Str
  outDate : Option Str
  notes : Str
  attachments : Option (List Attachment)
  movements : Option (List Movement)
deriving DecidableEq

def INWARD : Str := "INWARD".toList

def OUTWARD : Str := "OUTWARD".toList

/-- `v.movements || []`. -/
def movementsList (v : Vehicle) : List Movement := v.movements.getD []

/-- `v.attachments || []`. -/
def attachmentsList (v : Vehicle) : List Attachment := v.attachments.getD []

/-- `.reduce((a, b) => a + Number(b.qty || 0), 0)` over a movement list. -/
def sumQtyFold (l : List Movement) : Option ℚ :=
  l.foldl (fun a m => numAdd a (parseQty m.qty)) (some 0)

/-- `totalIn(v)`: inward quantity total, from src/server.js line 174. -/
def totalIn (v : Vehicle) : Option ℚ :=
  sumQtyFold ((movementsList v).filter (fun m => decide (m.type = INWARD)))

/-- `totalOut(v)`: outward quantity total, from src/server.js line 175. -/
def totalOut (v : Vehicle) : Option ℚ :=
  sumQtyFold ((movementsList v).filter (fun m => decide (m.type = OUTWARD)))

/-- `onHand(v) = totalIn(v) - totalOut(v)`, src/server.js line 176. -/
def onHand (v : Vehicle) : Option ℚ :=
  numSub (totalIn v) (totalOut v)

/-- Spec-side form of a sum: fold the already-parsed values. -/
def optSum (l : List (Option ℚ)) : Option ℚ := l.foldl numAdd (some 0)

theorem sumQtyFold_eq_optSum (l : List Movement) :
    sumQtyFold l = optSum (l.map (fun m => parseQty m.qty)) := by
  simp [sumQtyFold, optSum, List.foldl_map]

/-- C1: for every vehicle the derived on-hand quantity is the sum of the
parsed qty values of its INWARD movements minus the sum of the parsed qty
values of its OUTWARD movements, and a vehicle with a missing or empty
movement list has on-hand quantity 0. -/
theorem onHand_eq_inward_sub_outward :
    (∀ v : Vehicle,
      onHand v =
        numSub
          (optSum (((movementsList v).filter (fun m => decide (m.type = INWARD))).map
            (fun m => parseQty m.qty)))
          (optSum (((movementsList v).filter (fun m => decide (m.type = OUTWARD))).map
            (fun m => parseQty m.qty)))) ∧
    (∀ v : Vehicle, v.movements = none ∨ v.movements = some [] → onHand v = some 0) := by
  constructor
  · intro v
    rw [onHand, totalIn, totalOut, sumQtyFold_eq_optSum, sumQtyFold_eq_optSum]
  · intro v hv
    have hm : movementsList v = [] := by
      rcases hv with h | h <;> simp [movementsList, h]
    simp [onHand, totalIn, totalOut, hm, sumQtyFold, numSub]

/-- A concrete vehicle with no movement list, used by witnesses. -/
def vNoMoves : Vehicle :=
  { id := "a1".toList, vin := "VIN1".toList, stockNo := [], make := [], model := [],
    year := [], color := [], location := [], status := "In Bond".toList,
    supplier := [], buyer := [], inDate := none, outDate := none, notes := [],
    attachments := none, movements := none }

theorem onHand_eq_inward_sub_outward_witness : onHand vNoMoves = some 0 :=
  onHand_eq_inward_sub_outward.2 vNoMoves (Or.inl rfl)

/-! ## Search and status filtering (src/server.js lines 165-172) -/

/-- ASCII lowercasing, as `toLowerCase` acts on the fields in use. -/
def lowerStr (s : Str) : Str := s.map Char.toLower

/-- The identifying fields joined for search:
`[v.vin, v.stockNo, v.make, v.model, String(v.year), v.color, v.location,
v.supplier, v.buyer]`. -/
def searchFields (v : Vehicle) : List Str :=
  [v.vin, v.stockNo, v.make, v.model, v.year, v.color, v.location, v.supplier, v.buyer]

/-- `.join(" ")`. -/
def joinWithSpace : List Str → Str
  | [] => []
  | [s] => s
  | s :: rest => s ++ ' ' :: joinWithSpace rest

/-- `.filter(Boolean).join(" ")`: drop empty fields, then join. -/
def searchText (v : Vehicle) : Str :=
  joinWithSpace ((searchFields v).filter (fun s => !s.isEmpty))

/-- Is `needle` an initial segment of `hay`? -/
def strStartsWith : Str → Str → Bool
  | [], _ => true
  | _ :: _, [] => false
  | a :: as, b :: bs => a == b && strStartsWith as bs

/-- `hay.includes(needle)`: contiguous substring test. -/
def strContains : Str → Str → Bool
  | [], needle => needle.isEmpty
  | c :: t, needle => strStartsWith needle (c :: t) || strContains t needle

/-- `matchesQ` from the `filtered` memo:
`!q || fields.join(" ").toLowerCase().includes(q)` with
`q = query.trim().toLowerCase()`. -/
def matchesQ (v : Vehicle) (query : Str) : Bool :=
  (lowerStr (jsTrim query)).isEmpty ||
    strContains (lowerStr (searchText v)) (lowerStr (jsTrim query))

def ALL : Str := "ALL".toList

/-- `matchesStatus = statusFilter === "ALL" || v.status === statusFilter`. -/
def matchesStatus (v : Vehicle) (sf : Str) : Bool :=
  sf == ALL || v.status == sf

/-- The `filtered` memo: keep records matching both the free-text query and
the status filter. -/
def filteredItems (items : List Vehicle) (query sf : Str) : List Vehicle :=
  items.filter (fun v => matchesQ v query && matchesStatus v sf)

theorem lowerStr_isEmpty (s : Str) : (lowerStr s).isEmpty = s.isEmpty := by
  cases s <;> simp [lowerStr]

/-- C2: with no status restriction, a vehicle is retained exactly when the
lowercased join of its identifying fields contains the lowercased trimmed
query, and an empty or whitespace-only query retains every record. -/
theorem search_filter_spec :
    (∀ (items : List Vehicle) (query : Str) (v : Vehicle),
      v ∈ filteredItems items query ALL ↔
        v ∈ items ∧ (jsTrim query = [] ∨
          strContains (lowerStr (searchText v)) (lowerStr (jsTrim query)) = true)) ∧
    (∀ (items : List Vehicle) (query : Str),
      jsTrim query = [] → filteredItems items query ALL = items) := by
  have hm : ∀ (v : Vehicle) (query : Str),
      matchesQ v query = true ↔
        (jsTrim query = [] ∨
          strContains (lowerStr (searchText v)) (lowerStr (jsTrim query)) = true) := by
    intro v query
    simp [matchesQ, lowerStr_isEmpty, List.isEmpty_iff]
  constructor
  · intro items query v
    simp [filteredItems, List.mem_filter, matchesStatus, hm]
  · intro items query hq
    have : ∀ v ∈ items, (matchesQ v query && matchesStatus v ALL) = true := by
      intro v _
      simp [matchesStatus, (hm v query).2 (Or.inl hq)]
    exact List.filter_eq_self.mpr this

theorem search_filter_spec_witness :
    filteredItems [vNoMoves] [' ', ' '] ALL = [vNoMoves] :=
  search_filter_spec.2 [vNoMoves] [' ', ' '] (by decide)

/-- The four stored status values. -/
def STATUSES : List Str :=
  ["In Bond".toList, "Released".toList, "Sold".toList, "Hold".toList]

/-- C7: the status filter "ALL" excludes nothing on status grounds, and
each concrete status value retains exactly the vehicles with that status,
intersected with the free-text match. -/
theorem status_filter_spec :
    (∀ (items : List Vehicle) (q : Str) (v : Vehicle),
      v ∈ filteredItems items q ALL ↔ v ∈ items ∧ matchesQ v q = true) ∧
    (∀ (items : List Vehicle) (q s : Str) (v : Vehicle),
      s ∈ STATUSES →
      (v ∈ filteredItems items q s ↔
        v ∈ items ∧ matchesQ v q = true ∧ v.status = s)) := by
  constructor
  · intro items q v
    simp [filteredItems, List.mem_filter, matchesStatus]
  · intro items q s v hs
    have hne : s ≠ ALL := by
      fin_cases hs <;> decide
    simp [filteredItems, List.mem_filter, matchesStatus, hne, and_assoc]

theorem status_filter_spec_witness :
    vNoMoves ∈ filteredItems [vNoMoves] [] ("In Bond".toList) := by
  have h := (status_filter_spec.2 [vNoMoves] [] ("In Bond".toList) vNoMoves
    (by decide)).mpr
  exact h (by refine ⟨by decide, by decide, rfl⟩)

/-! ## Deleting a vehicle (src/server.js lines 206-209) -/

/-- `setItems(s => s.filter(v => v.id !== id))` on the success path of
`removeVehicle`. -/
def removeVehicleLocal (items : List Vehicle) (id : Str) : List Vehicle :=
  items.filter (fun v => !(v.id == id))

/-- All movements still belonging to the vehicle `id` in a state. -/
def movementsOfId (items : List Vehicle) (id : Str) : List Movement :=
  (items.filter (fun v => v.id == id)).flatMap movementsList

/-- All attachments still belonging to the vehicle `id` in a state. -/
def attachmentsOfId (items : List Vehicle) (id : Str) : List Attachment :=
  (items.filter (fun v => v.id == id)).flatMap attachmentsList

/-- C3: deleting a vehicle removes the vehicle itself and leaves no
movement or attachment belonging to it in the resulting state. -/
theorem remove_vehicle_cascades :
    ∀ (items : List Vehicle) (id : Str),
      (removeVehicleLocal items id).all (fun v => !(v.id == id)) = true ∧
      movementsOfId (removeVehicleLocal items id) id = [] ∧
      attachmentsOfId (removeVehicleLocal items id) id = [] := by
  intro items id
  have hfil : (removeVehicleLocal items id).filter (fun v => v.id == id) = [] := by
    simp only [removeVehicleLocal, List.filter_filter]
    apply List.filter_eq_nil_iff.mpr
    intro v _
    cases h : (v.id == id) <;> simp [h]
  refine ⟨?_, ?_, ?_⟩
  · apply List.all_eq_true.mpr
    intro v hv
    have := List.of_mem_filter hv
    exact this
  · simp [movementsOfId, hfil]
  · simp [attachmentsOfId, hfil]

/-! ## Updating a vehicle (src/server.js lines 194-204) -/

/-- A partial vehicle object spread over an existing record by
`{ ...v, ...patch }`: `none` means the field is absent from the patch. -/
structure VehiclePatch where
  vin : Option Str := none
  stockNo : Option Str := none
  make : Option Str := none
  model : Option Str := none
  year : Option Str := none
  color : Option Str := none
  location : Option Str := none
  status : Option Str := none
  supplier : Option Str := none
  buyer : Option Str := none
  inDate : Option (Option Str) := none
  outDate : Option (Option Str) := none
  notes : Option Str := none
  attachments : Option (List Attachment) := none
  movements : Option (List Movement) := none
deriving DecidableEq

/-- `{ ...v, ...patch }`: every field present in the patch overwrites the
record's field; absent fields are kept. -/
def applyPatch (v : Vehicle) (p : VehiclePatch) : Vehicle :=
  { id := v.id
    vin := p.vin.getD v.vin
    stockNo := p.stockNo.getD v.stockNo
    make := p.make.getD v.make
    model := p.model.getD v.model
    year := p.year.getD v.year
    color := p.color.getD v.color
    location := p.location.getD v.location
    status := p.status.getD v.status
    supplier := p.supplier.getD v.supplier
    buyer := p.buyer.getD v.buyer
    inDate := p.inDate.getD v.inDate
    outDate := p.outDate.getD v.outDate
    notes := p.notes.getD v.notes
    attachments := match p.attachments with
      | some l => some l
      | none => v.attachments
    movements := match p.movements with
      | some l => some l
      | none => v.movements }

/-- `setItems(s => s.map(v => v.id === id ? { ...v, ...patch } : v))`. -/
def updateVehicleLocal (items : List Vehicle) (id : Str) (p : VehiclePatch) :
    List Vehicle :=
  items.map (fun v => if v.id = id then applyPatch v p else v)

/-- C4: when the patch carries a movements field, the updated vehicle's
movement list is exactly the replacement list, so a movement of the prior
list survives only if it occurs in the replacement list. -/
theorem update_replaces_movements :
    ∀ (items : List Vehicle) (id : Str) (p : VehiclePatch) (l : List Movement),
      p.movements = some l →
      ∀ v, v ∈ updateVehicleLocal items id p → v.id = id →
        v.movements = some l ∧ ∀ m ∈ movementsList v, m ∈ l := by
  intro items id p l hp v hv hid
  rw [updateVehicleLocal, List.mem_map] at hv
  obtain ⟨x, _, hx⟩ := hv
  by_cases hxid : x.id = id
  · rw [if_pos hxid] at hx
    have hmov : v.movements = some l := by
      rw [← hx]
      simp [applyPatch, hp]
    refine ⟨hmov, ?_⟩
    intro m hm
    rw [movementsList, hmov] at hm
    exact hm
  · rw [if_neg hxid] at hx
    rw [← hx] at hid
    exact absurd hid hxid

/-- A concrete replacement movement, used by witnesses. -/
def mvOut2 : Movement :=
  { id := "m9".toList, type := OUTWARD, date := none, qty := some ("2".toList),
    notes := [] }

theorem update_replaces_movements_witness :
    ∃ v, v ∈ updateVehicleLocal [vNoMoves] ("a1".toList)
        { movements := some [mvOut2] } ∧
      v.movements = some [mvOut2] := by
  refine ⟨applyPatch vNoMoves { movements := some [mvOut2] }, by decide, ?_⟩
  exact (update_replaces_movements [vNoMoves] ("a1".toList)
    { movements := some [mvOut2] } [mvOut2] rfl
    (applyPatch vNoMoves { movements := some [mvOut2] }) (by decide) (by decide)).1

/-! ## API-mode mutations and error handling (src/server.js lines 21-25,
178-244): a failed request throws before `setItems` runs, the `catch`
shows an alert, and the `items` state is untouched. -/

/-- `addVehicle` in API mode: the response of `api.create`, or the thrown
error text. -/
def addVehicleApi (items : List Vehicle) (resp : Except Str Vehicle) :
    List Vehicle × Option Str :=
  match resp with
  | Except.ok created => (created :: items, none)
  | Except.error e => (items, some ("Create failed: ".toList ++ e))

/-- `updateVehicle` in API mode: on success the server's record replaces
the matching item. -/
def updateVehicleApi (items : List Vehicle) (id : Str)
    (resp : Except Str Vehicle) : List Vehicle × Option Str :=
  match resp with
  | Except.ok updated =>
    (items.map (fun v => if v.id = id then updated else v), none)
  | Except.error e => (items, some ("Update failed: ".toList ++ e))

/-- `removeVehicle` in API mode (after the confirm dialog). -/
def removeVehicleApi (items : List Vehicle) (id : Str)
    (resp : Except Str Unit) : List Vehicle × Option Str :=
  match resp with
  | Except.ok _ => (items.filter (fun v => !(v.id == id)), none)
  | Except.error e => (items, some ("Delete failed: ".toList ++ e))

/-- `addMovement` in API mode: the server returns the updated vehicle. -/
def addMovementApi (items : List Vehicle) (id : Str)
    (resp : Except Str Vehicle) : List Vehicle × Option Str :=
  match resp with
  | Except.ok v => (items.map (fun x => if x.id = id then v else x), none)
  | Except.error e => (items, some ("Movement failed: ".toList ++ e))

/-- `removeMovement` in API mode: the server returns the updated vehicle. -/
def removeMovementApi (items : List Vehicle) (id : Str)
    (resp : Except Str Vehicle) : List Vehicle × Option Str :=
  match resp with
  | Except.ok v => (items.map (fun x => if x.id = id then v else x), none)
  | Except.error e => (items, some ("Remove failed: ".toList ++ e))

/-- `addAttachments` in API mode: the uploaded rows are appended to the
matching vehicle's attachment list. -/
def addAttachmentsApi (items : List Vehicle) (id : Str)
    (resp : Except Str (List Attachment)) : List Vehicle × Option Str :=
  match resp with
  | Except.ok uploaded =>
    (items.map (fun x => if x.id = id then
        { x with attachments := some (attachmentsList x ++ uploaded) } else x), none)
  | Except.error e => (items, some ("Upload failed: ".toList ++ e))

/-- C5: every failing mutating call leaves the vehicle list exactly as it
was and surfaces the error through an alert message. -/
theorem failed_mutation_preserves_items :
    ∀ (items : List Vehicle) (id e : Str),
      addVehicleApi items (Except.error e) =
        (items, some ("Create failed: ".toList ++ e)) ∧
      updateVehicleApi items id (Except.error e) =
        (items, some ("Update failed: ".toList ++ e)) ∧
      removeVehicleApi items id (Except.error e) =
        (items, some ("Delete failed: ".toList ++ e)) ∧
      addMovementApi items id (Except.error e) =
        (items, some ("Movement failed: ".toList ++ e)) ∧
      removeMovementApi items id (Except.error e) =
        (items, some ("Remove failed: ".toList ++ e)) ∧
      addAttachmentsApi items id (Except.error e) =
        (items, some ("Upload failed: ".toList ++ e)) := by
  intro items id e
  exact ⟨rfl, rfl, rfl, rfl, rfl, rfl⟩

/-! ## Local-mode per-vehicle operations (src/server.js lines 211-251) -/

/-- `addMovement` local branch:
`{ ...x, movements: [...(x.movements || []), m] }` on the matching item. -/
def addMovementLocal (items : List Vehicle) (id : Str) (m : Movement) :
    List Vehicle :=
  items.map (fun x => if x.id = id then
    { x with movements := some (movementsList x ++ [m]) } else x)

/-- `removeMovement` local branch:
`{ ...x, movements: x.movements.filter(mv => mv.id !== mid) }`. The source
reads `x.movements` without a `|| []` guard, so the filter is only applied
when the list is present. -/
def removeMovementLocal (items : List Vehicle) (id mid : Str) : List Vehicle :=
  items.map (fun x => if x.id = id then
    { x with movements := x.movements.map (fun l => l.filter (fun mv => !(mv.id == mid))) }
    else x)

/-- `addAttachments` fallback branch: append the mapped files to the
matching vehicle's attachment list. -/
def addAttachmentsLocal (items : List Vehicle) (id : Str)
    (files : List Attachment) : List Vehicle :=
  items.map (fun x => if x.id = id then
    { x with attachments := some (attachmentsList x ++ files) } else x)

/-- `removeAttachment` state change:
`{ ...x, attachments: (x.attachments || []).filter(a => a.id !== aid) }`. -/
def removeAttachmentLocal (items : List Vehicle) (id aid : Str) : List Vehicle :=
  items.map (fun x => if x.id = id then
    { x with attachments := some ((attachmentsList x).filter (fun a => !(a.id == aid))) }
    else x)

theorem map_if_id_preserves_other {f : Vehicle → Vehicle} (items : List Vehicle)
    (id : Str) (i : Nat) (x : Vehicle) (hx : items.get? i = some x)
    (hid : x.id ≠ id) :
    (items.map (fun v => if v.id = id then f v else v)).get? i = some x := by
  rw [List.get?_map, hx]
  simp [hid]

/-- C8: each per-vehicle operation (update, add/remove movement, add
attachments, remove attachment) leaves every vehicle whose id differs from
the target positionally unchanged. -/
theorem per_vehicle_ops_frame :
    ∀ (items : List Vehicle) (id mid aid : Str) (p : VehiclePatch)
      (m : Movement) (files : List Attachment) (i : Nat) (x : Vehicle),
      items.get? i = some x → x.id ≠ id →
      (updateVehicleLocal items id p).get? i = some x ∧
      (addMovementLocal items id m).get? i = some x ∧
      (removeMovementLocal items id mid).get? i = some x ∧
      (addAttachmentsLocal items id files).get? i = some x ∧
      (removeAttachmentLocal items id aid).get? i = some x := by
  intro items id mid aid p m files i x hx hid
  refine ⟨?_, ?_, ?_, ?_, ?_⟩
  · exact map_if_id_preserves_other items id i x hx hid
  · exact map_if_id_preserves_other items id i x hx hid
  · exact map_if_id_preserves_other items id i x hx hid
  · exact map_if_id_preserves_other items id i x hx hid
  · exact map_if_id_preserves_other items id i x hx hid

/-- A second concrete vehicle with a different id, used by witnesses. -/
def vOther : Vehicle :=
  { vNoMoves with id := "b2".toList, vin := "VIN2".toList }

theorem per_vehicle_ops_frame_witness :
    (updateVehicleLocal [vOther, vNoMoves] ("a1".toList) {}).get? 0 = some vOther ∧
    (addMovementLocal [vOther, vNoMoves] ("a1".toList) mvOut2).get? 0 = some vOther := by
  have h := per_vehicle_ops_frame [vOther, vNoMoves] ("a1".toList)
    ("m0".toList) ("f0".toList) {} mvOut2 [] 0 vOther rfl (by decide)
  exact ⟨h.1, h.2.1⟩

/-! ## Creating a vehicle in local mode (src/server.js lines 178-192) -/

/-- The fields supplied by the vehicle form (everything but the id). -/
structure VehicleData where
  vin : Str
  stockNo : Str
  make : Str
  model : Str
  year : Str
  color : Str
  location : Str
  status : Str
  supplier : Str
  buyer : Str
  inDate : Option Str
  outDate : Option Str
  notes : Str
  attachments : Option (List Attachment)
  movements : Option (List Movement)
deriving DecidableEq

/-- `{ id: uid(), ...data }`, with the movements field chosen by the
seeding step. -/
def mkVehicle (id : Str) (d : VehicleData) (movs : Option (List Movement)) :
    Vehicle :=
  { id := id, vin := d.vin, stockNo := d.stockNo, make := d.make,
    model := d.model, year := d.year, color := d.color,
    location := d.location, status := d.status, supplier := d.supplier,
    buyer := d.buyer, inDate := d.inDate, outDate := d.outDate,
    notes := d.notes, attachments := d.attachments, movements := movs }

/-- `vehicle.inDate || new Date().toISOString()`: a missing or empty
in-date falls back to the current timestamp. -/
def orNow (inDate : Option Str) (nowIso : Str) : Str :=
  match inDate with
  | none => nowIso
  | some [] => nowIso
  | some s => s

/-- The seeded initial movement:
`{ id: uid(), type: "INWARD", date: vehicle.inDate || now, qty: "1",
notes: "Initial stock" }`. -/
def initialMovement (mvId : Str) (inDate : Option Str) (nowIso : Str) :
    Movement :=
  { id := mvId, type := INWARD, date := some (orNow inDate nowIso),
    qty := some ("1".toList), notes := "Initial stock".toList }

/-- `if (!vehicle.movements || vehicle.movements.length === 0) ...`:
a missing or empty list is replaced by the single seeded movement. -/
def seedMovements (movs : Option (List Movement)) (mvId : Str)
    (inDate : Option Str) (nowIso : Str) : Option (List Movement) :=
  match movs with
  | none => some [initialMovement mvId inDate nowIso]
  | some [] => some [initialMovement mvId inDate nowIso]
  | some l => some l

/-- `addVehicle` local branch: build the record, seed its movements when
needed, and prepend it to the list. -/
def addVehicleLocal (newId mvId nowIso : Str) (d : VehicleData)
    (items : List Vehicle) : List Vehicle :=
  mkVehicle newId d (seedMovements d.movements mvId d.inDate nowIso) :: items

theorem numAdd_some_zero (a : Option ℚ) : numAdd a (some 0) = a := by
  cases a <;> simp [numAdd]

/-- C9: creating a vehicle locally with a missing or empty movements list
seeds exactly one INWARD movement of qty "1" dated at the in-date (or now),
giving the new record on-hand quantity 1; a non-empty supplied movements
list is kept verbatim. -/
theorem create_seeds_initial_movement :
    ∀ (newId mvId nowIso : Str) (d : VehicleData) (items : List Vehicle),
      ((d.movements = none ∨ d.movements = some []) →
        addVehicleLocal newId mvId nowIso d items =
          mkVehicle newId d (some [initialMovement mvId d.inDate nowIso]) :: items ∧
        (initialMovement mvId d.inDate nowIso).type = INWARD ∧
        (initialMovement mvId d.inDate nowIso).qty = some ("1".toList) ∧
        onHand (mkVehicle newId d (some [initialMovement mvId d.inDate nowIso])) =
          some 1) ∧
      (∀ l, l ≠ [] → d.movements = some l →
        addVehicleLocal newId mvId nowIso d items = mkVehicle newId d (some l) :: items) := by
  intro newId mvId nowIso d items
  constructor
  · intro hd
    have hseed : seedMovements d.movements mvId d.inDate nowIso =
        some [initialMovement mvId d.inDate nowIso] := by
      rcases hd with h | h <;> rw [h] <;> rfl
    refine ⟨by rw [addVehicleLocal, hseed], rfl, rfl, ?_⟩
    have hq : parseQty (some ['1']) = some ((1 : ℕ) : ℚ) := rfl
    simp [onHand, totalIn, totalOut, movementsList, mkVehicle, sumQtyFold,
      initialMovement, List.filter, INWARD, OUTWARD, hq, numAdd, numSub]
  · intro l hl hd
    have hseed : seedMovements d.movements mvId d.inDate nowIso = some l := by
      rw [hd]
      cases l with
      | nil => exact absurd rfl hl
      | cons a t => rfl
    rw [addVehicleLocal, hseed]

/-- Concrete form data with no movements, used by witnesses. -/
def dEmpty : VehicleData :=
  { vin := "VIN3".toList, stockNo := [], make := [], model := [], year := [],
    color := [], location := [], status := "In Bond".toList, supplier := [],
    buyer := [], inDate := none, outDate := none, notes := [],
    attachments := none, movements := none }

theorem create_seeds_initial_movement_witness :
    onHand (mkVehicle ("c3".toList) dEmpty
      (some [initialMovement ("m1".toList) dEmpty.inDate ("2024".toList)])) =
      some 1 :=
  ((create_seeds_initial_movement ("c3".toList) ("m1".toList) ("2024".toList)
    dEmpty []).1 (Or.inl rfl)).2.2.2

/-! ## Blank quantities in the aggregation (src/server.js lines 174-176) -/

theorem sumQtyFold_middle_zero (a b : List Movement) (m : Movement)
    (hm : parseQty m.qty = some 0) :
    sumQtyFold (a ++ m :: b) = sumQtyFold (a ++ b) := by
  simp only [sumQtyFold, List.foldl_append, List.foldl_cons, hm, numAdd_some_zero]

theorem sumQtyFold_filter_middle_zero (p : Movement → Bool)
    (a b : List Movement) (m : Movement) (hm : parseQty m.qty = some 0) :
    sumQtyFold ((a ++ m :: b).filter p) = sumQtyFold ((a ++ b).filter p) := by
  rw [List.filter_append, List.filter_append, List.filter_cons]
  cases hp : p m with
  | false => simp
  | true => simpa using sumQtyFold_middle_zero (a.filter p) (b.filter p) m hm

/-- C10: a movement whose qty is missing or the empty string parses to 0
and its presence anywhere in the list changes neither total nor the
on-hand quantity. -/
theorem blank_qty_contributes_zero :
    ∀ (v w : Vehicle) (pre post : List Movement) (m : Movement),
      m.qty = none ∨ m.qty = some [] →
      v.movements = some (pre ++ m :: post) →
      w.movements = some (pre ++ post) →
      parseQty m.qty = some 0 ∧
      totalIn v = totalIn w ∧ totalOut v = totalOut w ∧ onHand v = onHand w := by
  intro v w pre post m hq hv hw
  have hm : parseQty m.qty = some 0 := by
    rcases hq with h | h <;> rw [h] <;> rfl
  have hmv : movementsList v = pre ++ m :: post := by
    rw [movementsList, hv]; rfl
  have hmw : movementsList w = pre ++ post := by
    rw [movementsList, hw]; rfl
  have hin : totalIn v = totalIn w := by
    rw [totalIn, totalIn, hmv, hmw]
    exact sumQtyFold_filter_middle_zero _ pre post m hm
  have hout : totalOut v = totalOut w := by
    rw [totalOut, totalOut, hmv, hmw]
    exact sumQtyFold_filter_middle_zero _ pre post m hm
  exact ⟨hm, hin, hout, by rw [onHand, onHand, hin, hout]⟩

/-- A movement with an empty qty string, used by witnesses. -/
def mvBlank : Movement :=
  { id := "mB".toList, type := INWARD, date := none, qty := some [], notes := [] }

/-- A vehicle holding only the blank movement, used by witnesses. -/
def vBlank : Vehicle := { vNoMoves with movements := some [mvBlank] }

/-- The same vehicle with an empty movement list, used by witnesses. -/
def vEmptyList : Vehicle := { vNoMoves with movements := some [] }

theorem blank_qty_contributes_zero_witness :
    parseQty mvBlank.qty = some 0 ∧ onHand vBlank = onHand vEmptyList := by
  have h := blank_qty_contributes_zero vBlank vEmptyList [] [] mvBlank
    (Or.inr rfl) rfl rfl
  exact ⟨h.1, h.2.2.2⟩
